import Mathlib

/-!
# uniqush-conn: shallow embedding of the message cache and server connection logic

This file embeds, in Lean 4, the parts of the `uniqush-conn` repository that
the verified claims are about:

* `msgcache/rediscache.go` (`redisMessageCache.Set` / `.Get` / `.Del`), over an
  explicit model of the relevant Redis commands (`SET`, `SETEX`, `GET`, a
  `MULTI`/`GET`/`DEL`/`EXEC` transaction) and of the redigo helpers
  (`redis.Bytes` returns the distinguished `ErrNil` error when a reply is nil).
* `proto/server/obsolete/conn.go` (`serverConn`): `shouldDigest`,
  `writeAutoCompress`, `writeDigest`, `fromServer`, `SendMessage`,
  `sendAllCachedMessage`, `ProcessCommand`, `cutString`, and the `NewConn`
  defaults.

Go machine integers are modelled as `Int` with the `int32(..)` conversions made
explicit as wrapping into `[-2^31, 2^31)`.  Go maps (`map[string]string`) are
modelled as association lists with first-match lookup and overwrite-on-insert,
and `[]byte` values as `List Nat`.  External I/O (the backing store reachable
over the network, the peer connection) is modelled by explicit oracles so that
error propagation through the source code can be stated.
-/

set_option linter.unusedVariables false

/-- Go `[]byte`, modelled as a list of byte values. -/
abbrev Bytes := List Nat

/-- Go `map[string]string`, modelled as an association list (unique keys are
not enforced structurally; lookup takes the first match, insert overwrites). -/
abbrev StrMap := List (String × String)

/-- First-match lookup, the model of Go map indexing `m[k]`. -/
def mapLookup : StrMap → String → Option String
  | [], _ => none
  | (k1, v) :: t, k => if k1 = k then some v else mapLookup t k

/-- Overwrite-or-append insert, the model of Go map assignment `m[k] = v`. -/
def mapInsert : StrMap → String → String → StrMap
  | [], k, v => [(k, v)]
  | (k1, v1) :: t, k, v => if k1 = k then (k, v) :: t else (k1, v1) :: mapInsert t k v

/-- `proto.Message`.  Modelled from the spec (the `proto` package itself is not
among the given sources): `{ Id, Sender, SenderService, Header, Body }`. -/
structure Message where
  Id : String
  Sender : String
  SenderService : String
  Header : StrMap
  Body : Bytes
deriving DecidableEq, Repr

/-- `new(proto.Message)`: all fields at their Go zero values. -/
def emptyMessage : Message := ⟨"", "", "", [], []⟩

/-- Modelled from the spec: `proto.Message.Size()` (the `proto` package is not
among the given sources).  Per the spec it is "a deterministic byte-length
function of the serialized header+body"; we take the sum of the UTF-8 byte
lengths of all header keys and values plus the body length. -/
def Message.size (m : Message) : Nat :=
  m.Header.foldl (fun acc kv => acc + kv.1.utf8ByteSize + kv.2.utf8ByteSize) 0
    + m.Body.length

/-! ## The redis-backed message cache (`msgcache/rediscache.go`)

The store state is a map from Redis keys to stored values.  A stored value
keeps the serialized message bytes plus the TTL it was written with (`none`
for a plain `SET`, `some t` for `SETEX t`); no wall clock is modelled, so
entries never expire inside the model. -/

/-- Serialized message data.  `json.Marshal` produces a byte string; we model
the serialized alphabet as tokens that carry either a number or a string, which
keeps the encoder/decoder pair executable and faithful to the round-trip
behavior of the Go JSON codec on `proto.Message`. -/
inductive JTok where
  | num (v : Nat)
  | str (v : String)
deriving DecidableEq, Repr

abbrev MData := List JTok

/-- Modelled from the spec: `msgMarshal` = `json.Marshal` of a `proto.Message`
(Go standard library).  Field order: Id, Sender, SenderService, Header (length
prefixed), Body (length prefixed).  Never produces empty data. -/
def msgMarshal (m : Message) : MData :=
  [JTok.str m.Id, JTok.str m.Sender, JTok.str m.SenderService,
   JTok.num m.Header.length]
  ++ (m.Header.flatMap fun kv => [JTok.str kv.1, JTok.str kv.2])
  ++ [JTok.num m.Body.length] ++ m.Body.map JTok.num

/-- Decoder helper: one string token. -/
def parseStrTok : MData → Option (String × MData)
  | JTok.str s :: r => some (s, r)
  | _ => none

/-- Decoder helper: `n` header pairs. -/
def parsePairs : Nat → MData → Option (StrMap × MData)
  | 0, r => some ([], r)
  | k + 1, r => do
    let (a, r1) ← parseStrTok r
    let (b, r2) ← parseStrTok r1
    let (ps, r3) ← parsePairs k r2
    pure ((a, b) :: ps, r3)

/-- Decoder helper: `n` body bytes. -/
def parseNums : Nat → MData → Option (Bytes × MData)
  | 0, r => some ([], r)
  | k + 1, JTok.num v :: r => do
    let (vs, r1) ← parseNums k r
    pure (v :: vs, r1)
  | _ + 1, _ => none

/-- Modelled from the spec: `msgUnmarshal` = `json.Unmarshal` into a
`proto.Message`; returns `none` (a nil message plus an error in Go) on
malformed data. -/
def msgUnmarshal (d : MData) : Option Message := do
  let (id, r1) ← parseStrTok d
  let (sender, r2) ← parseStrTok r1
  let (senderService, r3) ← parseStrTok r2
  match r3 with
  | JTok.num hn :: r4 =>
    let (hdr, r5) ← parsePairs hn r4
    match r5 with
    | JTok.num bn :: r6 =>
      let (body, r7) ← parseNums bn r6
      if r7.isEmpty then
        some ⟨id, sender, senderService, hdr, body⟩
      else none
    | _ => none
  | _ => none

/-- One stored Redis value: the data written plus the TTL mode it was written
with (`none`: plain `SET`, no expiry; `some t`: `SETEX t`). -/
structure RedisEntry where
  data : MData
  ttl : Option Int
deriving DecidableEq, Repr

/-- The Redis keyspace. -/
abbrev RedisStore := List (String × RedisEntry)

/-- Redis `GET key` (the reply is nil when the key is absent). -/
def storeLookup : RedisStore → String → Option RedisEntry
  | [], _ => none
  | (k1, e) :: t, k => if k1 = k then some e else storeLookup t k

/-- Redis `SET`/`SETEX`: bind `key` to `e`, overwriting any previous binding. -/
def storeSet : RedisStore → String → RedisEntry → RedisStore
  | [], k, e => [(k, e)]
  | (k1, e1) :: t, k, e => if k1 = k then (k, e) :: t else (k1, e1) :: storeSet t k e

/-- Redis `DEL key`. -/
def storeDel : RedisStore → String → RedisStore
  | [], _ => []
  | (k1, e1) :: t, k => if k1 = k then storeDel t k else (k1, e1) :: storeDel t k

/-- Cache-level errors surfaced by the redis message cache.  `errNil` is
redigo's `redis.ErrNil` ("redigo: nil returned"), produced by `redis.Bytes`
whenever the reply it converts is nil; `unmarshalErr` is a `json.Unmarshal`
failure; `storeUnreachable` stands for any transport-level store failure. -/
inductive CacheErr where
  | errNil
  | unmarshalErr
  | storeUnreachable
deriving DecidableEq, Repr

/-- `msgKey(service, username, id)`:
`fmt.Sprintf("mcache:%v:%v:%v", service, username, id)`. -/
def msgKey (service username id : String) : String :=
  "mcache:" ++ service ++ ":" ++ username ++ ":" ++ id

namespace redisMessageCache

/-- `redisMessageCache.Set`: marshal the message (which cannot fail in the
model) and store it, with `SET` when `ttl.Seconds() <= 0` and `SETEX`
otherwise.  The connection-pool handling of the Go code is transport plumbing
and is not modelled. -/
def Set (store : RedisStore) (service username id : String) (msg : Message)
    (ttlSeconds : Int) : RedisStore :=
  let key := msgKey service username id
  let data := msgMarshal msg
  if ttlSeconds ≤ 0 then
    storeSet store key ⟨data, none⟩
  else
    storeSet store key ⟨data, some ttlSeconds⟩

/-- `redisMessageCache.Get`: `GET key`, then `redis.Bytes` (which turns a nil
reply into `redis.ErrNil`), then `msgUnmarshal`. -/
def Get (store : RedisStore) (service username id : String) :
    Option Message × Option CacheErr :=
  let key := msgKey service username id
  match storeLookup store key with
  | none => (none, some CacheErr.errNil)
  | some e =>
    match msgUnmarshal e.data with
    | some m => (some m, none)
    | none => (none, some CacheErr.unmarshalErr)

/-- `redisMessageCache.Del` (the `GetThenDel` operation): a
`MULTI`/`GET`/`DEL`/`EXEC` transaction, modelled as one atomic step.  The
`EXEC` reply is `[getReply, delCount]`; `redis.Bytes` on the `getReply`
converts a nil reply (absent key) into `redis.ErrNil`.  When the fetched data
is empty the Go code returns `(nil, nil)`; otherwise it unmarshals.  Returns
(message, error, store after the transaction). -/
def Del (store : RedisStore) (service username id : String) :
    Option Message × Option CacheErr × RedisStore :=
  let key := msgKey service username id
  let store1 := storeDel store key
  match storeLookup store key with
  | none => (none, some CacheErr.errNil, store1)
  | some e =>
    if e.data.isEmpty then (none, none, store1)
    else
      match msgUnmarshal e.data with
      | some m => (some m, none, store1)
      | none => (none, some CacheErr.unmarshalErr, store1)

end redisMessageCache

/-! ## The server connection (`proto/server/obsolete/conn.go`) -/

/-- `proto.Command` types used by `ProcessCommand` plus `CMD_DIGEST`. -/
inductive CmdType where
  | SUBSCRIPTION
  | SET_VISIBILITY
  | FWD_REQ
  | SETTING
  | MSG_RETRIEVE
  | REQ_ALL_CACHED
  | DIGEST
deriving DecidableEq, Repr

/-- `proto.Command`: a type tag, an ordered parameter list and an optional
attached message. -/
structure Command where
  type : CmdType
  params : List String
  message : Option Message
deriving DecidableEq, Repr

/-- One outgoing frame, as produced by `WriteMessage` (a full message) or
`cmdio.WriteCommand` (a command), together with the compression flag it was
written with.  The encrypted transport below these calls is out of scope. -/
inductive Frame where
  | msg (m : Message) (compress : Bool)
  | cmd (c : Command) (compress : Bool)
deriving DecidableEq, Repr

/-- The compression flag a frame was written with. -/
def Frame.compressed : Frame → Bool
  | .msg _ c => c
  | .cmd _ c => c

/-- The parameter list of a command frame (`[]` for a message frame). -/
def Frame.cmdParams : Frame → List String
  | .msg _ _ => []
  | .cmd c _ => c.params

/-- The auxiliary message attached to a command frame. -/
def Frame.auxMessage : Frame → Option Message
  | .msg _ _ => none
  | .cmd c _ => c.message

/-- True exactly for a command frame of type `CMD_DIGEST`. -/
def Frame.isDigest : Frame → Bool
  | .msg _ _ => false
  | .cmd c _ => c.type == CmdType.DIGEST

/-- The mutable per-connection state of a `serverConn`: the identity fixed at
authentication time plus the atomically updated scalar settings and the
digest-field list.  (The `mcache`/`fwdChan`/`subChan` collaborators live in
`Env` below.) -/
structure ConnState where
  service : String
  username : String
  digestThreshold : Int
  compressThreshold : Int
  visible : Int
  digestFields : List String
deriving DecidableEq, Repr

/-- `NewConn` defaults: `digestThreshold = -1`, `compressThreshold = 512`,
empty `digestFields`, `visible = 1`. -/
def newConn (service username : String) : ConnState :=
  ⟨service, username, -1, 512, 1, []⟩

/-- Go's `int32(v)` conversion: wrap into `[-2^31, 2^31)`. -/
def toInt32 (v : Int) : Int :=
  (v + 2147483648) % 4294967296 - 2147483648

/-- A digit character's value, or `none`. -/
def digitVal (c : Char) : Option Nat :=
  if '0' ≤ c ∧ c ≤ '9' then some (c.toNat - '0'.toNat) else none

/-- Accumulate decimal digits; `none` on any non-digit. -/
def parseDigitsAux : List Char → Nat → Option Nat
  | [], acc => some acc
  | c :: t, acc =>
    match digitVal c with
    | some d => parseDigitsAux t (acc * 10 + d)
    | none => none

/-- A non-empty all-digit run, or `none`. -/
def parseDigits : List Char → Option Nat
  | [] => none
  | cs => parseDigitsAux cs 0

/-- Modelled from the spec: Go's `strconv.Atoi` (standard library) on a 64-bit
platform: an optional leading sign, one or more decimal digits, value within
the signed 64-bit range; any violation is an error (`none`).  (On a range
error Go returns a clamped value together with the error; the caller in
`conn.go` discards the value whenever the error is non-nil, so `none`
suffices.) -/
def atoi (s : String) : Option Int :=
  let signDigits : Bool × List Char :=
    match s.data with
    | '-' :: t => (true, t)
    | '+' :: t => (false, t)
    | t => (false, t)
  match parseDigits signDigits.2 with
  | none => none
  | some n =>
    let v : Int := if signDigits.1 then -(n : Int) else (n : Int)
    if v < -9223372036854775808 ∨ 9223372036854775807 < v then none else some v

/-- `serverConn.fromServer`: a message counts as originated by the server/self
when its sender is empty, or its sender is this connection's username and its
sender service is empty or this connection's service. -/
def fromServer (st : ConnState) (msg : Message) : Bool :=
  if msg.Sender.isEmpty then true
  else if msg.Sender == st.username then
    if msg.SenderService.isEmpty then true
    else msg.SenderService == st.service
  else false

/-- The digest decision of `serverConn.shouldDigest`:
`digestThreshold >= 0 && digestThreshold < int32(sz)`. -/
def shouldDigestAt (st : ConnState) (sz : Nat) : Bool :=
  decide (0 ≤ st.digestThreshold ∧ st.digestThreshold < toInt32 (sz : Int))

/-- `serverConn.shouldDigest`: returns the message size and the decision. -/
def shouldDigest (st : ConnState) (msg : Message) : Nat × Bool :=
  (msg.size, shouldDigestAt st msg.size)

/-- The compression decision shared by `writeAutoCompress` and `writeDigest`:
`compressThreshold > 0 && compressThreshold < int32(sz)`. -/
def compressFlag (st : ConnState) (sz : Nat) : Bool :=
  decide (0 < st.compressThreshold ∧ st.compressThreshold < toInt32 (sz : Int))

/-- `serverConn.writeAutoCompress`: write the full message with the
auto-compression flag. -/
def writeAutoCompress (st : ConnState) (msg : Message) (sz : Nat) : Frame :=
  Frame.msg msg (compressFlag st sz)

/-- The digest-field filtering loop of `serverConn.writeDigest`: for each
configured field, first copy the message header's value (if present), then the
caller-supplied extra map's value (if present) into the accumulated digest
header. -/
def digestHeaderAux (hdr extra : StrMap) : List String → StrMap → StrMap
  | [], acc => acc
  | f :: fs, acc =>
    let acc1 := match mapLookup hdr f with
      | some v => mapInsert acc f v
      | none => acc
    let acc2 := match mapLookup extra f with
      | some v => mapInsert acc1 f v
      | none => acc1
    digestHeaderAux hdr extra fs acc2

/-- `serverConn.writeDigest`: build a `CMD_DIGEST` command carrying
`[sz, id]` (plus the sender identity when the message is not from the
server/self), attach the filtered digest header only when non-empty, and write
it with the auto-compression flag. -/
def writeDigest (st : ConnState) (msg : Message) (extra : StrMap) (sz : Nat)
    (id : String) : Frame :=
  let params :=
    if fromServer st msg then [toString sz, id]
    else [toString sz, id, msg.Sender, msg.SenderService]
  let hdr := digestHeaderAux msg.Header extra st.digestFields []
  let dmsg : Option Message :=
    if hdr.isEmpty then none else some { emptyMessage with Header := hdr }
  Frame.cmd ⟨CmdType.DIGEST, params, dmsg⟩ (compressFlag st sz)

/-- `serverConn.SendMessage`: digest when `shouldDigest` says so, otherwise
assign `id` to the message and write it directly with auto-compression.
(The `ttl` argument is part of the Go signature but unused in its body; write
errors from the transport are out of scope here.) -/
def sendMessage (st : ConnState) (msg : Message) (extra : StrMap) (ttl : Int)
    (id : String) : Frame :=
  let szDig := shouldDigest st msg
  if szDig.2 then writeDigest st msg extra szDig.1 id
  else writeAutoCompress st { msg with Id := id } szDig.1

/-- `cutString(data)`: scan for the first NUL byte; on success the bytes
before it and the bytes after it are returned.  The Go loop `for idx, d =
range data` leaves `idx` at the LAST index when no NUL occurs, so for
non-empty NUL-free data it returns `(data[:len-1], data[len:])` — the final
byte is treated as if it were the separator; the `idx < 0` error branch
(`proto.ErrMalformedCommand`, here `none`) is reachable only for empty input. -/
def cutString : Bytes → Option (Bytes × Bytes)
  | [] => none
  | d :: rest =>
    if d = 0 then some ([], rest)
    else
      match cutString rest with
      | some (s, r) => some (d :: s, r)
      | none => some ([], [])

/-- The remainder returned by a successful `cutString` is strictly shorter. -/
theorem cutString_rest_lt (data s r : Bytes) (h : cutString data = some (s, r)) :
    r.length < data.length := by
  induction data generalizing s r with
  | nil => simp [cutString] at h
  | cons d rest ih =>
    by_cases hd : d = 0
    · simp [cutString, hd] at h
      obtain ⟨h1, h2⟩ := h
      subst h2
      simp only [List.length_cons]
      omega
    · cases hc : cutString rest with
      | none =>
        simp [cutString, hd, hc] at h
        obtain ⟨h1, h2⟩ := h
        subst h2
        simp only [List.length_cons, List.length_nil]
        omega
      | some p =>
        obtain ⟨s1, r1⟩ := p
        simp [cutString, hd, hc] at h
        obtain ⟨h1, h2⟩ := h
        have h3 := ih s1 r1 hc
        subst h2
        simp only [List.length_cons]
        omega

/-- Fuel-indexed form of the exclusion-list parsing loop of the
`CMD_REQ_ALL_CACHED` branch of `ProcessCommand` (the fuel only serves
termination; `parseExcludesAux_congr` shows any fuel at least `data.length`
computes the loop's result, since `cutString` strictly shrinks the data). -/
def parseExcludesAux : Nat → Bytes → List Bytes
  | 0, _ => []
  | _ + 1, [] => []
  | fuel + 1, d :: rest =>
    match cutString (d :: rest) with
    | none => []
    | some idr => idr.1 :: parseExcludesAux fuel idr.2

/-- The exclusion-list parsing loop of the `CMD_REQ_ALL_CACHED` branch of
`ProcessCommand`: repeatedly `cutString` while data remains, appending each
returned entry; stop on a `cutString` error (which, see `cutString`, cannot
actually occur for the non-empty data this loop passes). -/
def parseExcludes (data : Bytes) : List Bytes :=
  parseExcludesAux data.length data

/-- Any sufficient fuel computes the same exclusion list. -/
theorem parseExcludesAux_congr (f1 : Nat) :
    ∀ (f2 : Nat) (data : Bytes), data.length ≤ f1 → data.length ≤ f2 →
      parseExcludesAux f1 data = parseExcludesAux f2 data := by
  induction f1 with
  | zero =>
    intro f2 data h1 h2
    have hnil : data = [] := List.length_eq_zero.mp (Nat.le_zero.mp h1)
    subst hnil
    cases f2 <;> rfl
  | succ f ih =>
    intro f2 data h1 h2
    cases data with
    | nil => cases f2 <;> rfl
    | cons d rest =>
      cases f2 with
      | zero => simp at h2
      | succ f2p =>
        simp only [parseExcludesAux]
        cases hc : cutString (d :: rest) with
        | none => rfl
        | some p =>
          obtain ⟨id, r⟩ := p
          have hlt := cutString_rest_lt (d :: rest) id r hc
          simp only [List.length_cons] at h1 h2 hlt
          have hr : parseExcludesAux f r = parseExcludesAux f2p r := by
            apply ih
            · omega
            · omega
          simp [hr]

/-- The loop equation for `parseExcludes` on non-empty data. -/
theorem parseExcludes_cons (data : Bytes) (h : data ≠ []) :
    parseExcludes data =
      match cutString data with
      | none => []
      | some idr => idr.1 :: parseExcludes idr.2 := by
  cases data with
  | nil => exact absurd rfl h
  | cons d rest =>
    show parseExcludesAux (rest.length + 1) (d :: rest) = _
    simp only [parseExcludesAux]
    cases hc : cutString (d :: rest) with
    | none => rfl
    | some p =>
      obtain ⟨id, r⟩ := p
      have hlt := cutString_rest_lt (d :: rest) id r hc
      simp only [List.length_cons] at hlt
      have hr : parseExcludesAux rest.length r = parseExcludes r := by
        apply parseExcludesAux_congr
        · omega
        · exact le_rfl
      simp [hr]

/-- A transport write failure (`WriteMessage` / `WriteCommand` returning a
non-nil error). -/
inductive WriteErr where
  | ioError
deriving DecidableEq, Repr

/-- Errors returned by `ProcessCommand` / `sendAllCachedMessage`:
`proto.ErrBadPeerImpl`, a cache error, or a write error. -/
inductive ProcErr where
  | badPeerImpl
  | cache (e : CacheErr)
  | write (e : WriteErr)
deriving DecidableEq, Repr

/-- `server.ForwardRequest`.  The Go `TTL` field is `time.ParseDuration` of
the command's first parameter with the parse error silently discarded
(standard-library parsing, not modelled); `ttlParam` carries that raw
parameter instead. -/
structure ForwardRequest where
  receiver : String
  receiverService : String
  ttlParam : String
  message : Message
deriving DecidableEq, Repr

/-- `server.SubscribeRequest`. -/
structure SubscribeRequest where
  subscribe : Bool
  service : String
  username : String
  params : StrMap
deriving DecidableEq, Repr

/-- The externally observable effects of processing one command: frames
written to the peer, forward requests pushed to `fwdChan`, subscribe requests
pushed to `subChan`. -/
structure Effects where
  frames : List Frame
  fwds : List ForwardRequest
  subs : List SubscribeRequest
deriving DecidableEq, Repr

/-- No effects. -/
def noEffects : Effects := ⟨[], [], []⟩

/-- The collaborators of a `serverConn` and their behavior on this call:
whether `mcache` / `fwdChan` / `subChan` are configured (non-nil), the results
the message cache returns, and whether a given outgoing write fails.  These
oracles stand for `msgcache.Cache.Get`, `msgcache.Cache.GetCachedMessages`
(declared by the `Cache` interface, whose implementation is outside the given
sources) and the transport's write outcome. -/
structure Env where
  mcacheConfigured : Bool
  fwdConfigured : Bool
  subConfigured : Bool
  cacheGet : String → Except CacheErr (Option Message)
  getCachedMessages : List Bytes → Except CacheErr (List (Option Message))
  writeErr : Frame → Option WriteErr

/-- The per-message loop of `serverConn.sendAllCachedMessage`: skip nil
messages; digest or write each message (a digest with nil extra and the
message's own id; a full message without id reassignment); stop at the first
write error.  Returns the frames written before any failure and the error. -/
def sendCachedLoop (st : ConnState) (env : Env) :
    List (Option Message) → List Frame × Option ProcErr
  | [] => ([], none)
  | none :: rest => sendCachedLoop st env rest
  | some m :: rest =>
    let szDig := shouldDigest st m
    let fr :=
      if szDig.2 then writeDigest st m [] szDig.1 m.Id
      else writeAutoCompress st m szDig.1
    match env.writeErr fr with
    | some w => ([], some (ProcErr.write w))
    | none =>
      let rec1 := sendCachedLoop st env rest
      (fr :: rec1.1, rec1.2)

/-- `serverConn.sendAllCachedMessage`: fetch all cached messages for this
connection's identity minus the excluded ids; any fetch error is returned;
otherwise send each message in turn, returning the first write error. -/
def sendAllCachedMessage (st : ConnState) (env : Env) (excludes : List Bytes) :
    List Frame × Option ProcErr :=
  match env.getCachedMessages excludes with
  | Except.error e => ([], some (ProcErr.cache e))
  | Except.ok msgs =>
    if msgs.isEmpty then ([], none)
    else sendCachedLoop st env msgs

/-- `serverConn.ProcessCommand`: one transition per command type, returning
the new connection state, the externally observable effects and the error
result.  A nil command is a no-op. -/
def processCommand (st : ConnState) (env : Env) (cmd : Option Command) :
    ConnState × Effects × Option ProcErr :=
  match cmd with
  | none => (st, noEffects, none)
  | some c =>
    match c.type with
    | CmdType.SUBSCRIPTION =>
      -- sink must be configured; >=1 param; message present with non-empty header
      if !env.subConfigured then (st, noEffects, none)
      else
        match c.params with
        | [] => (st, noEffects, some ProcErr.badPeerImpl)
        | p0 :: _ =>
          match c.message with
          | none => (st, noEffects, some ProcErr.badPeerImpl)
          | some m =>
            if m.Header.isEmpty then (st, noEffects, some ProcErr.badPeerImpl)
            else if p0 = "0" then
              (st, { noEffects with subs := [⟨false, st.service, st.username, m.Header⟩] }, none)
            else if p0 = "1" then
              (st, { noEffects with subs := [⟨true, st.service, st.username, m.Header⟩] }, none)
            else (st, noEffects, none)  -- unrecognized flag: silently ignored
    | CmdType.SET_VISIBILITY =>
      match c.params with
      | [] => (st, noEffects, some ProcErr.badPeerImpl)
      | p0 :: _ =>
        let v : Int := if p0 = "0" then 0 else if p0 = "1" then 1 else -1
        if 0 ≤ v then ({ st with visible := v }, noEffects, none)
        else (st, noEffects, none)
    | CmdType.FWD_REQ =>
      match c.params with
      | p0 :: p1 :: rest =>
        if !env.fwdConfigured then (st, noEffects, none)
        else
          -- stamp the attached message (created fresh when absent) with this
          -- connection's identity and clear its id
          let m0 := c.message.getD emptyMessage
          let m := { m0 with Sender := st.username, SenderService := st.service, Id := "" }
          let rsvc := match rest with
            | [] => st.service
            | p2 :: _ => p2
          (st, { noEffects with fwds := [⟨p1, rsvc, p0, m⟩] }, none)
      | _ => (st, noEffects, some ProcErr.badPeerImpl)
    | CmdType.SETTING =>
      match c.params with
      | p0 :: p1 :: rest =>
        -- params[0]: digest threshold (empty = no change); stored via int32(..)
        match (if p0.isEmpty then some st
               else (atoi p0).map fun d => { st with digestThreshold := toInt32 d }) with
        | none => (st, noEffects, some ProcErr.badPeerImpl)
        | some st1 =>
          -- params[1]: compress threshold; on a parse error the digest update
          -- above has already been stored (the Go code mutated in place)
          match (if p1.isEmpty then some st1
                 else (atoi p1).map fun cv => { st1 with compressThreshold := toInt32 cv }) with
          | none => (st1, noEffects, some ProcErr.badPeerImpl)
          | some st2 =>
            let st3 := if rest.isEmpty then st2 else { st2 with digestFields := rest }
            (st3, noEffects, none)
      | _ => (st, noEffects, some ProcErr.badPeerImpl)
    | CmdType.MSG_RETRIEVE =>
      match c.params with
      | [] => (st, noEffects, some ProcErr.badPeerImpl)
      | id :: _ =>
        if !env.mcacheConfigured then
          -- no cache: synthesize an empty message carrying the requested id
          let m := { emptyMessage with Id := id }
          let fr := writeAutoCompress st m m.size
          match env.writeErr fr with
          | some w => (st, noEffects, some (ProcErr.write w))
          | none => (st, { noEffects with frames := [fr] }, none)
        else
          match env.cacheGet id with
          | Except.error e => (st, noEffects, some (ProcErr.cache e))
          | Except.ok rmsg =>
            let m := { rmsg.getD emptyMessage with Id := id }
            let fr := writeAutoCompress st m m.size
            match env.writeErr fr with
            | some w => (st, noEffects, some (ProcErr.write w))
            | none => (st, { noEffects with frames := [fr] }, none)
    | CmdType.REQ_ALL_CACHED =>
      if !env.mcacheConfigured then (st, noEffects, none)
      else
        let excludes := match c.message with
          | none => []
          | some m => if m.Body.isEmpty then [] else parseExcludes m.Body
        -- source line 363: `self.sendAllCachedMessage(excludes...)` — the
        -- returned error is DISCARDED; only the written frames are observable
        let sent := sendAllCachedMessage st env excludes
        (st, { noEffects with frames := sent.1 }, none)
    | CmdType.DIGEST =>
      -- no switch case: fall through, nothing happens
      (st, noEffects, none)

/-! ## Helper lemmas -/

/-- `int32(sz)` is the identity below `2^31` (sizes are non-negative). -/
theorem toInt32_coe (n : Nat) (h : (n : Int) < 2147483648) :
    toInt32 (n : Int) = (n : Int) := by
  unfold toInt32
  have h0 : (0 : Int) ≤ (n : Int) + 2147483648 := by omega
  have h1 : (n : Int) + 2147483648 < 4294967296 := by omega
  rw [Int.emod_eq_of_lt h0 h1]
  ring

theorem mapLookup_insert_self (m : StrMap) (k v : String) :
    mapLookup (mapInsert m k v) k = some v := by
  induction m with
  | nil => simp [mapInsert, mapLookup]
  | cons kv t ih =>
    obtain ⟨k1, v1⟩ := kv
    by_cases h : k1 = k
    · simp [mapInsert, mapLookup, h]
    · simp [mapInsert, mapLookup, h, ih]

theorem mapLookup_insert_ne (m : StrMap) (k v k2 : String) (h : k ≠ k2) :
    mapLookup (mapInsert m k v) k2 = mapLookup m k2 := by
  induction m with
  | nil => simp [mapInsert, mapLookup, h]
  | cons kv t ih =>
    obtain ⟨k1, v1⟩ := kv
    by_cases h1 : k1 = k
    · subst h1
      simp [mapInsert, mapLookup, h]
    · simp [mapInsert, mapLookup, h1, ih]

/-- When no configured field occurs in the header or extra map, the filtering
loop leaves the accumulator untouched. -/
theorem digestHeaderAux_absent (hdr extra : StrMap) (fields : List String)
    (acc : StrMap)
    (h : ∀ f ∈ fields, mapLookup hdr f = none ∧ mapLookup extra f = none) :
    digestHeaderAux hdr extra fields acc = acc := by
  induction fields generalizing acc with
  | nil => rfl
  | cons f fs ih =>
    have hf := h f (by simp)
    simp only [digestHeaderAux, hf.1, hf.2]
    exact ih acc fun g hg => h g (by simp [hg])

/-- The extra map's value for a configured field survives to the end of the
filtering loop: its insert comes after the header's insert in every iteration
touching that field, and iterations for other fields preserve it. -/
theorem digestHeaderAux_extra_override (hdr extra : StrMap) (f v2 : String)
    (he : mapLookup extra f = some v2) :
    ∀ (fields : List String) (acc : StrMap),
      (mapLookup acc f = some v2 ∨ f ∈ fields) →
      mapLookup (digestHeaderAux hdr extra fields acc) f = some v2 := by
  intro fields
  induction fields with
  | nil =>
    intro acc h
    cases h with
    | inl h1 => simpa [digestHeaderAux] using h1
    | inr h1 => simp at h1
  | cons g fs ih =>
    intro acc h
    by_cases hg : g = f
    · subst hg
      cases hh : mapLookup hdr g with
      | none =>
        simp only [digestHeaderAux, hh, he]
        exact ih (mapInsert acc g v2) (Or.inl (mapLookup_insert_self acc g v2))
      | some v1 =>
        simp only [digestHeaderAux, hh, he]
        exact ih (mapInsert (mapInsert acc g v1) g v2)
          (Or.inl (mapLookup_insert_self (mapInsert acc g v1) g v2))
    · have pres : ∀ (a : StrMap) (w : String),
          mapLookup (mapInsert a g w) f = mapLookup a f :=
        fun a w => mapLookup_insert_ne a g w f hg
      have hmem : mapLookup acc f = some v2 ∨ f ∈ fs := by
        cases h with
        | inl h1 => exact Or.inl h1
        | inr h1 =>
          cases List.mem_cons.mp h1 with
          | inl h2 => exact absurd h2.symm hg
          | inr h2 => exact Or.inr h2
      cases hh : mapLookup hdr g with
      | none =>
        cases hee : mapLookup extra g with
        | none =>
          simp only [digestHeaderAux, hh, hee]
          exact ih acc hmem
        | some w =>
          simp only [digestHeaderAux, hh, hee]
          exact ih (mapInsert acc g w) (hmem.imp_left fun h1 => (pres acc w).trans h1)
      | some v1 =>
        cases hee : mapLookup extra g with
        | none =>
          simp only [digestHeaderAux, hh, hee]
          exact ih (mapInsert acc g v1) (hmem.imp_left fun h1 => (pres acc v1).trans h1)
        | some w =>
          simp only [digestHeaderAux, hh, hee]
          exact ih (mapInsert (mapInsert acc g v1) g w)
            (hmem.imp_left fun h1 =>
              (pres (mapInsert acc g v1) w).trans ((pres acc v1).trans h1))

/-- A 2 GiB body, for exercising the `int32(sz)` wrap in the threshold
comparisons. -/
def bigBody : Bytes := List.replicate 2147483648 0

/-- A message whose size is exactly `2^31`. -/
def bigMsg : Message := { emptyMessage with Body := bigBody }

theorem bigBody_length : bigBody.length = 2147483648 := by
  simp only [bigBody, List.length_replicate]

/-- With an empty header the size is just the body length. -/
theorem size_body_only (b : Bytes) :
    ({ emptyMessage with Body := b } : Message).size = b.length := by
  simp [Message.size, emptyMessage]

theorem bigMsg_size : bigMsg.size = 2147483648 := by
  show ({ emptyMessage with Body := bigBody } : Message).size = 2147483648
  rw [size_body_only, bigBody_length]

/-! ## Concrete inputs used by the claim theorems -/

/-- A concrete message with a non-empty header and body. -/
def msgA : Message := ⟨"", "alice", "svcA", [("k", "v")], [1, 2, 3]⟩

/-- An environment with a configured cache whose bulk fetch fails (the store
is unreachable). -/
def envCacheFail : Env :=
  ⟨true, false, false, fun _ => Except.ok none,
   fun _ => Except.error CacheErr.storeUnreachable, fun _ => none⟩

/-- An environment with a configured cache holding one message, but whose
every outgoing write fails. -/
def envWriteFail : Env :=
  ⟨true, false, false, fun _ => Except.ok none,
   fun _ => Except.ok [some msgA], fun _ => some WriteErr.ioError⟩

/-- An environment with only the forward sink configured and no failures. -/
def envFwdOnly : Env :=
  ⟨false, true, false, fun _ => Except.ok none, fun _ => Except.ok [],
   fun _ => none⟩

/-! ## Claim theorems -/

/-- C1: for a message cached under a (service, user) identity with TTL ≤ 0,
the first `GetThenDel` (`redisMessageCache.Del`) returns the original message
(here even fully equal, hence content-equal) and removes the entry in the one
atomic `MULTI`/`GET`/`DEL`/`EXEC` step; but a subsequent call for the same id
returns a nil message together with redigo's `ErrNil` ERROR — not the nil
error the claim (and the repository's own tests `TestGetSetMessage` /
`TestGetNonExistMsg`) demand, because `redis.Bytes` converts the transaction's
nil `GET` reply into `redis.ErrNil` and `Del` returns that error. -/
theorem claim_C1_del_once_then_errNil :
    redisMessageCache.Del (redisMessageCache.Set [] "srv" "usr" "id1" msgA 0)
        "srv" "usr" "id1"
      = (some msgA, none, [])
    ∧ redisMessageCache.Del [] "srv" "usr" "id1"
      = (none, some CacheErr.errNil, []) :=
  ⟨rfl, rfl⟩

/-- C2: for a (service, user, id) with no live entry, both `Get` and
`Del`/`GetThenDel` return a nil message — but TOGETHER WITH redigo's `ErrNil`
error, not a nil error as the claim states: `conn.Do("GET", key)` yields a nil
reply for an absent key and `redis.Bytes` turns a nil reply into the error
`redis.ErrNil`, which both functions return. -/
theorem claim_C2_absent_entry_yields_errNil :
    redisMessageCache.Get [] "srv" "usr" "nosuch"
      = (none, some CacheErr.errNil)
    ∧ redisMessageCache.Del [] "srv" "usr" "nosuch"
      = (none, some CacheErr.errNil, []) :=
  ⟨rfl, rfl⟩

/-- C3: while processing `REQUEST_ALL_CACHED` with a cache configured, any
error raised by the cache bulk fetch or by sending the retrieved messages is
returned by `sendAllCachedMessage` — but `ProcessCommand` DISCARDS it
(source line 363 calls `self.sendAllCachedMessage(excludes...)` without using
the result) and returns a nil error, contradicting the claim that the error
propagates to `ProcessCommand`'s caller.  Shown for both a failing cache
fetch and a failing write. -/
theorem claim_C3_req_all_cached_error_discarded :
    (sendAllCachedMessage (newConn "s" "u") envCacheFail []
       = ([], some (ProcErr.cache CacheErr.storeUnreachable))
     ∧ processCommand (newConn "s" "u") envCacheFail
         (some ⟨CmdType.REQ_ALL_CACHED, [], none⟩)
       = (newConn "s" "u", noEffects, none))
    ∧ ((sendAllCachedMessage (newConn "s" "u") envWriteFail []).2
         = some (ProcErr.write WriteErr.ioError)
       ∧ processCommand (newConn "s" "u") envWriteFail
           (some ⟨CmdType.REQ_ALL_CACHED, [], none⟩)
         = (newConn "s" "u", noEffects, none)) :=
  ⟨⟨rfl, rfl⟩, ⟨rfl, rfl⟩⟩

/-- C7: parsing the NUL-separated exclusion list of a `REQUEST_ALL_CACHED`
body.  For the body `"id1\0id2"` (a well-formed entry followed by a
non-NUL-terminated, i.e. malformed, final entry) the code does NOT stop at and
drop the malformed entry as the claim states: `cutString`'s Go loop leaves
`idx` at the LAST index when no NUL occurs (not at `-1`), so the malformed
tail `"id2"` is included with its last byte cut off (as `"id"`), and the
`ErrMalformedCommand` branch fires only on empty input, which the parse loop
never passes. -/
theorem claim_C7_malformed_tail_truncated_not_dropped :
    parseExcludes [105, 100, 49, 0, 105, 100, 50]
      = [[105, 100, 49], [105, 100]]
    ∧ parseExcludes [105, 100, 49, 0, 105, 100, 50]
      ≠ ([[105, 100, 49]] : List Bytes)
    ∧ cutString [] = none :=
  ⟨rfl, by decide, rfl⟩

/-- A connection whose digest threshold has been set to `0`. -/
def stDigZero : ConnState := { newConn "s" "u" with digestThreshold := 0 }

/-- A connection whose digest threshold has been set to `5`. -/
def stDig5 : ConnState := { newConn "s" "u" with digestThreshold := 5 }

/-- A header-less message of size 5. -/
def msg5 : Message := { emptyMessage with Body := [1, 2, 3, 4, 5] }

/-- A header-less message of size 6. -/
def msg6 : Message := { emptyMessage with Body := [1, 2, 3, 4, 5, 6] }

/-- C4 (counterexample): with `digestThreshold = 0` and a message of size
`2^31`, the claim's condition `digestThreshold >= 0 AND digestThreshold < sz`
holds, yet `SendMessage` sends the FULL message, not a digest: the source
compares against `int32(sz)`, which wraps `2^31` to `-2^31`. -/
theorem claim_C4_cex_int32_wrap :
    0 ≤ stDigZero.digestThreshold
    ∧ stDigZero.digestThreshold < (bigMsg.size : Int)
    ∧ sendMessage stDigZero bigMsg [] 0 "idX"
        = Frame.msg { bigMsg with Id := "idX" } false := by
  have hsz := bigMsg_size
  have hb : shouldDigestAt stDigZero bigMsg.size = false := by rw [hsz]; decide
  have hcf : compressFlag stDigZero bigMsg.size = false := by rw [hsz]; decide
  refine ⟨by decide, ?_, ?_⟩
  · rw [hsz]; decide
  · simp [sendMessage, shouldDigest, hb, writeAutoCompress, hcf]

/-- C4 (amended): for messages of size below `2^31` (where `int32(sz) = sz`),
a digest is sent instead of the full message exactly when
`digestThreshold >= 0` and `digestThreshold < sz`; otherwise the id is
assigned to the message and it is written directly with auto-compression.
The comparison is strict, so a message at the threshold goes out in full and
one of size threshold+1 as a digest. -/
theorem claim_C4_digest_decision (st : ConnState) (msg : Message)
    (extra : StrMap) (ttl : Int) (id : String)
    (hsz : (msg.size : Int) < 2147483648) :
    ((sendMessage st msg extra ttl id = writeDigest st msg extra msg.size id
        ∧ (sendMessage st msg extra ttl id).isDigest = true)
      ↔ (0 ≤ st.digestThreshold ∧ st.digestThreshold < (msg.size : Int)))
    ∧ (¬(0 ≤ st.digestThreshold ∧ st.digestThreshold < (msg.size : Int)) →
        sendMessage st msg extra ttl id
          = Frame.msg { msg with Id := id } (compressFlag st msg.size)) := by
  have ht : toInt32 (msg.size : Int) = (msg.size : Int) := toInt32_coe msg.size hsz
  by_cases hcond : 0 ≤ st.digestThreshold ∧ st.digestThreshold < (msg.size : Int)
  · have hb : shouldDigestAt st msg.size = true := by
      unfold shouldDigestAt
      rw [ht]
      exact decide_eq_true hcond
    have hsend : sendMessage st msg extra ttl id
        = writeDigest st msg extra msg.size id := by
      simp [sendMessage, shouldDigest, hb]
    refine ⟨iff_of_true ⟨hsend, ?_⟩ hcond, fun hn => absurd hcond hn⟩
    rw [hsend]
    simp [writeDigest, Frame.isDigest]
  · have hb : shouldDigestAt st msg.size = false := by
      unfold shouldDigestAt
      rw [ht]
      exact decide_eq_false hcond
    have hsend : sendMessage st msg extra ttl id
        = Frame.msg { msg with Id := id } (compressFlag st msg.size) := by
      simp [sendMessage, shouldDigest, hb, writeAutoCompress]
    refine ⟨iff_of_false ?_ hcond, fun _ => hsend⟩
    intro hab
    rw [hsend] at hab
    exact absurd hab.2 (by simp [Frame.isDigest])

/-- C4 (witness): with the threshold at 5, the size-5 message goes out in
full with its id assigned, and the size-6 message goes out as a digest. -/
theorem claim_C4_digest_decision_witness :
    sendMessage stDig5 msg5 [] 0 "i"
      = Frame.msg { msg5 with Id := "i" } (compressFlag stDig5 msg5.size)
    ∧ (sendMessage stDig5 msg6 [] 0 "i").isDigest = true :=
  ⟨(claim_C4_digest_decision stDig5 msg5 [] 0 "i" (by decide)).2 (by decide),
   ((claim_C4_digest_decision stDig5 msg6 [] 0 "i" (by decide)).1.mpr
      (by decide)).2⟩

/-- C8 (counterexample): with the default `compressThreshold = 512` (and
digests disabled) and a message of size `2^31`, the claim's condition
`compressThreshold > 0 AND compressThreshold < sz` holds, yet the frame goes
out UNCOMPRESSED: the source compares against `int32(sz)`, which wraps `2^31`
to `-2^31`. -/
theorem claim_C8_cex_int32_wrap :
    0 < (newConn "s" "u").compressThreshold
    ∧ (newConn "s" "u").compressThreshold < (bigMsg.size : Int)
    ∧ sendMessage (newConn "s" "u") bigMsg [] 0 "idY"
        = Frame.msg { bigMsg with Id := "idY" } false := by
  have hsz := bigMsg_size
  have hb : shouldDigestAt (newConn "s" "u") bigMsg.size = false := by
    rw [hsz]; decide
  have hcf : compressFlag (newConn "s" "u") bigMsg.size = false := by
    rw [hsz]; decide
  refine ⟨by decide, ?_, ?_⟩
  · rw [hsz]; decide
  · simp [sendMessage, shouldDigest, hb, writeAutoCompress, hcf]

/-- C8 (amended): for frame sizes below `2^31` (where `int32(sz) = sz`), both
the full-message path (`writeAutoCompress`) and the digest path
(`writeDigest`) set the compression flag exactly when `compressThreshold > 0`
and `compressThreshold < sz`. -/
theorem claim_C8_compress_decision (st : ConnState) (m : Message)
    (extra : StrMap) (sz : Nat) (id : String)
    (hsz : (sz : Int) < 2147483648) :
    ((writeAutoCompress st m sz).compressed = true
      ↔ (0 < st.compressThreshold ∧ st.compressThreshold < (sz : Int)))
    ∧ ((writeDigest st m extra sz id).compressed = true
      ↔ (0 < st.compressThreshold ∧ st.compressThreshold < (sz : Int))) := by
  have ht : toInt32 (sz : Int) = (sz : Int) := toInt32_coe sz hsz
  constructor
  · simp [writeAutoCompress, Frame.compressed, compressFlag, ht]
  · simp [writeDigest, Frame.compressed, compressFlag, ht]

/-- C8 (witness): at the default threshold 512, a frame of size 513 is
compressed and one of size 512 is not, on both paths. -/
theorem claim_C8_compress_decision_witness :
    (writeAutoCompress (newConn "s" "u") msgA 513).compressed = true
    ∧ (writeDigest (newConn "s" "u") msgA [] 512 "i").compressed = false := by
  constructor
  · exact (claim_C8_compress_decision (newConn "s" "u") msgA [] 513 "i"
      (by decide)).1.mpr (by decide)
  · have h := (claim_C8_compress_decision (newConn "s" "u") msgA [] 512 "i"
      (by decide)).2
    have h2 : ¬((writeDigest (newConn "s" "u") msgA [] 512 "i").compressed = true) :=
      fun hc => absurd (h.mp hc) (by decide)
    simpa using h2

/-- C5: a `FORWARD_REQUEST` with at least 2 params, processed while the
forward sink is configured, pushes exactly one `ForwardRequest` whose message
carries THIS connection's username/service as sender (whatever the peer put
in those fields, and even when the peer attached no message at all), whose id
is cleared, and whose receiver service is the 3rd param when present and this
connection's own service otherwise. -/
theorem claim_C5_forward_identity_stamping (st : ConnState) (env : Env)
    (p0 p1 : String) (rest : List String) (msgOpt : Option Message)
    (hfwd : env.fwdConfigured = true) :
    processCommand st env (some ⟨CmdType.FWD_REQ, p0 :: p1 :: rest, msgOpt⟩)
      = (st,
         { noEffects with fwds := [⟨p1,
             (match rest with | [] => st.service | p2 :: _ => p2),
             p0,
             { msgOpt.getD emptyMessage with
                 Sender := st.username, SenderService := st.service, Id := "" }⟩] },
         none) := by
  simp [processCommand, hfwd]

/-- A message a peer might attach, carrying forged sender fields. -/
def msgEvil : Message := ⟨"oldid", "mallory", "evilsvc", [("h", "1")], [9]⟩

/-- C5 (witness): the forged sender fields of the attached message are
overwritten with the connection's own identity, the id is cleared, and the
receiver service defaults to the connection's service. -/
theorem claim_C5_forward_identity_stamping_witness :
    envFwdOnly.fwdConfigured = true
    ∧ processCommand (newConn "svc" "alice") envFwdOnly
        (some ⟨CmdType.FWD_REQ, ["10s", "bob"], some msgEvil⟩)
      = (newConn "svc" "alice",
         { noEffects with fwds := [⟨"bob", "svc", "10s",
             { msgEvil with Sender := "alice", SenderService := "svc", Id := "" }⟩] },
         none) :=
  ⟨rfl, claim_C5_forward_identity_stamping (newConn "svc" "alice") envFwdOnly
    "10s" "bob" [] (some msgEvil) rfl⟩

/-- C6: every digest command carries `[size, id]` as its first two
parameters; the full parameter list appends the sender's username and service
exactly when the message's sender is not the connection's own identity
(`fromServer` false); and when no configured digest field occurs in the
message header or the extra map, no auxiliary message is attached. -/
theorem claim_C6_digest_params_and_attachment (st : ConnState) (msg : Message)
    (extra : StrMap) (sz : Nat) (id : String) :
    (writeDigest st msg extra sz id).cmdParams.take 2 = [toString sz, id]
    ∧ (writeDigest st msg extra sz id).cmdParams
        = (if fromServer st msg then [toString sz, id]
           else [toString sz, id, msg.Sender, msg.SenderService])
    ∧ ((∀ f ∈ st.digestFields,
          mapLookup msg.Header f = none ∧ mapLookup extra f = none) →
        (writeDigest st msg extra sz id).auxMessage = none) := by
  refine ⟨?_, ?_, ?_⟩
  · cases h : fromServer st msg <;> simp [writeDigest, Frame.cmdParams, h]
  · cases h : fromServer st msg <;> simp [writeDigest, Frame.cmdParams, h]
  · intro h
    have ha := digestHeaderAux_absent msg.Header extra st.digestFields [] h
    simp [writeDigest, Frame.auxMessage, ha]

/-- A connection configured with two digest fields. -/
def stFields : ConnState := { newConn "svc" "alice" with digestFields := ["f1", "f2"] }

/-- A message from a third party whose header holds none of the digest
fields. -/
def msgOther : Message := ⟨"mid", "carol", "svcC", [("x", "1")], [1]⟩

/-- C6 (witness): foreign sender appended after `[size, id]`; no configured
field present, so no auxiliary message. -/
theorem claim_C6_digest_params_and_attachment_witness :
    (∀ f ∈ stFields.digestFields,
       mapLookup msgOther.Header f = none ∧ mapLookup ([] : StrMap) f = none)
    ∧ (writeDigest stFields msgOther [] 42 "mid").cmdParams
        = ["42", "mid", "carol", "svcC"]
    ∧ (writeDigest stFields msgOther [] 42 "mid").auxMessage = none := by
  refine ⟨by decide, ?_, ?_⟩
  · have h := (claim_C6_digest_params_and_attachment stFields msgOther [] 42 "mid").2.1
    rw [h]
    decide
  · exact (claim_C6_digest_params_and_attachment stFields msgOther [] 42 "mid").2.2
      (by decide)

/-- C9: when a configured digest field occurs both in the message header and
in the caller-supplied extra map, the digest's auxiliary header carries the
EXTRA map's value: the header map is consulted first and the extra map second
in each iteration of the filtering loop, so extra overrides header. -/
theorem claim_C9_extra_overrides_header (st : ConnState) (msg : Message)
    (extra : StrMap) (sz : Nat) (id f v1 v2 : String)
    (hf : f ∈ st.digestFields)
    (hh : mapLookup msg.Header f = some v1)
    (he : mapLookup extra f = some v2) :
    ∃ dm, (writeDigest st msg extra sz id).auxMessage = some dm
      ∧ mapLookup dm.Header f = some v2 := by
  have hlook := digestHeaderAux_extra_override msg.Header extra f v2 he
    st.digestFields [] (Or.inr hf)
  have hne : (digestHeaderAux msg.Header extra st.digestFields []).isEmpty = false := by
    cases hd : digestHeaderAux msg.Header extra st.digestFields [] with
    | nil => rw [hd] at hlook; simp [mapLookup] at hlook
    | cons a t => rfl
  refine ⟨{ emptyMessage with
      Header := digestHeaderAux msg.Header extra st.digestFields [] }, ?_, hlook⟩
  simp [writeDigest, Frame.auxMessage, hne]

/-- A connection configured with the single digest field `"f1"`. -/
def stF1 : ConnState := { newConn "s" "u" with digestFields := ["f1"] }

/-- A message whose header binds `"f1"`. -/
def msgHdr : Message := { emptyMessage with Header := [("f1", "hv")] }

/-- C9 (witness): header says `"hv"`, extra says `"ev"`; the digest carries
`"ev"`. -/
theorem claim_C9_extra_overrides_header_witness :
    "f1" ∈ stF1.digestFields
    ∧ mapLookup msgHdr.Header "f1" = some "hv"
    ∧ mapLookup [("f1", "ev")] "f1" = some "ev"
    ∧ ∃ dm, (writeDigest stF1 msgHdr [("f1", "ev")] 7 "i").auxMessage = some dm
        ∧ mapLookup dm.Header "f1" = some "ev" :=
  ⟨by decide, by decide, by decide,
   claim_C9_extra_overrides_header stF1 msgHdr [("f1", "ev")] 7 "i" "f1" "hv" "ev"
     (by decide) (by decide) (by decide)⟩

/-- C10: a `SETTING` command whose first param parses and whose second param
is non-empty but unparsable returns `ErrBadPeerImpl` AFTER having already
stored the new digest threshold (with the `int32(..)` wrap made explicit),
while the compress threshold and the digest-field list stay untouched — the
transition is not atomic on error. -/
theorem claim_C10_setting_nonatomic (st : ConnState) (env : Env)
    (p0 p1 : String) (rest : List String) (msgOpt : Option Message) (d : Int)
    (hp0 : p0.isEmpty = false) (hd : atoi p0 = some d)
    (hp1 : p1.isEmpty = false) (hc : atoi p1 = none) :
    processCommand st env (some ⟨CmdType.SETTING, p0 :: p1 :: rest, msgOpt⟩)
      = ({ st with digestThreshold := toInt32 d }, noEffects,
         some ProcErr.badPeerImpl) := by
  simp [processCommand, hp0, hd, hp1, hc]

/-- C10 (counterexample): the claim says the digest threshold "has already
been updated to params[0]'s value"; it is in fact updated to `int32` of that
value — `"2147483648"` is stored as `-2147483648` — and for a decimal beyond
the 64-bit range (`"99999999999999999999"`) `strconv.Atoi` itself errors, so
no update happens at all and the state is returned unchanged. -/
theorem claim_C10_cex_int32_wrap :
    (atoi "2147483648" = some 2147483648
     ∧ processCommand (newConn "s" "u") envFwdOnly
         (some ⟨CmdType.SETTING, ["2147483648", "x"], none⟩)
       = ({ newConn "s" "u" with digestThreshold := -2147483648 }, noEffects,
          some ProcErr.badPeerImpl)
     ∧ ((-2147483648 : Int) ≠ 2147483648))
    ∧ (atoi "99999999999999999999" = none
       ∧ processCommand (newConn "s" "u") envFwdOnly
           (some ⟨CmdType.SETTING, ["99999999999999999999", "x"], none⟩)
         = (newConn "s" "u", noEffects, some ProcErr.badPeerImpl)) := by
  exact ⟨⟨by decide, by decide, by decide⟩, by decide, by decide⟩

/-- C10 (witness): `params = ["7", "x"]` stores digest threshold 7, leaves the
rest of the state unchanged and returns the protocol error. -/
theorem claim_C10_setting_nonatomic_witness :
    atoi "7" = some 7 ∧ atoi "x" = none
    ∧ processCommand (newConn "s" "u") envFwdOnly
        (some ⟨CmdType.SETTING, ["7", "x"], none⟩)
      = ({ newConn "s" "u" with digestThreshold := toInt32 7 }, noEffects,
         some ProcErr.badPeerImpl) :=
  ⟨by decide, by decide,
   claim_C10_setting_nonatomic (newConn "s" "u") envFwdOnly "7" "x" [] none 7
     (by decide) (by decide) (by decide) (by decide)⟩
